import Mathlib

/-!
Verification of the pitch-classification core of `src/main.py`
(Hindustani flute note detector).

The Python source computes, from a detected `frequency` (Hz) and a tonic
MIDI note number `n_Sa`:
  n = 69 + 12 * log2(frequency / 440)
  d = n - n_Sa
  k = int(floor(d / 12))
  m = d - 12 * k
then picks the closest swar among the 7 swar semitones plus a virtual
candidate at 12 (`find_closest_swar`), resolves the saptak label, and
computes the deviation in cents against the exact pitch of the chosen swar,
mapping |cents| to a colour ('green' / 'yellow' / 'red').

Python floats are modelled by real numbers; exceptions (dictionary `KeyError`,
list `IndexError`) are modelled by `Option`, with `none` for a raised
exception.
-/

namespace Bansi

/-- `swar_semitones = [0, 2, 4, 5, 7, 9, 11]` from the source. -/
def swar_semitones : List ℤ := [0, 2, 4, 5, 7, 9, 11]

/-- `swar_names = ['Sa', 'Re', 'Ga', 'Ma', 'Pa', 'Dha', 'Ni']` from the source. -/
def swar_names : List String := ["Sa", "Re", "Ga", "Ma", "Pa", "Dha", "Ni"]

/-- `saptak_names = {-1: 'Mandra', 0: 'Madhya', 1: 'Taar'}` from the source. -/
def saptak_names : List (ℤ × String) := [(-1, "Mandra"), (0, "Madhya"), (1, "Taar")]

/-- `swar_to_semitone = {swar: semitone for swar, semitone in zip(swar_names, swar_semitones)}`.
Dictionary lookup is fallible in Python (`KeyError`), hence `Option`. -/
def swar_to_semitone (swar : String) : Option ℤ :=
  (swar_names.zip swar_semitones).lookup swar

/-- `saptak_names.get(k, f"Saptak {k}")` from line 48 of the source:
lookup with a generic default label. -/
def saptak_label (k : ℤ) : String :=
  ((saptak_names).lookup k).getD ("Saptak " ++ toString k)

/-- `np.argmin(distances)`: the index of the FIRST occurrence of the minimum
of the list (numpy documents that ties resolve to the first occurrence). -/
noncomputable def argmin : List ℝ → ℕ
  | [] => 0
  | [_] => 0
  | x :: y :: xs =>
      if (y :: xs).getD (argmin (y :: xs)) 0 < x then argmin (y :: xs) + 1 else 0

/-- `semitones = swar_semitones + [12]` from line 18 of the source:
the 7 swar offsets plus the virtual candidate at 12. -/
def candidate_semitones : List ℤ := swar_semitones ++ [12]

/-- `min(abs(m - s), 12 - abs(m - s))` from line 19: circular distance. -/
noncomputable def circ_dist (m : ℝ) (s : ℤ) : ℝ :=
  min |m - (s : ℝ)| (12 - |m - (s : ℝ)|)

/-- `distances = [min(abs(m - s), 12 - abs(m - s)) for s in semitones]` (line 19). -/
noncomputable def distances (m : ℝ) : List ℝ :=
  candidate_semitones.map (circ_dist m)

/-- `find_closest_swar(m)` from lines 16-23 of the source.  Returns the swar
name and the saptak adjustment; `swar_names[min_dist_idx]` is a fallible list
index in Python, modelled with `List.get?`. -/
noncomputable def find_closest_swar (m : ℝ) : Option (String × ℤ) :=
  let min_dist_idx := argmin (distances m)
  if min_dist_idx = 7 then some ("Sa", 1)
  else (swar_names.get? min_dist_idx).map (fun name => (name, 0))

/-- `n = 69 + 12 * np.log2(frequency / 440)` (line 42). -/
noncomputable def n_of (frequency : ℝ) : ℝ :=
  69 + 12 * Real.logb 2 (frequency / 440)

/-- `d = n - n_Sa` (line 43). -/
noncomputable def d_of (frequency : ℝ) (n_Sa : ℤ) : ℝ :=
  n_of frequency - (n_Sa : ℝ)

/-- `k = int(np.floor(d / 12))` (line 44): floor division, toward -∞. -/
noncomputable def k_of (frequency : ℝ) (n_Sa : ℤ) : ℤ :=
  ⌊d_of frequency n_Sa / 12⌋

/-- `m = d - 12 * k` (line 45): position within the octave. -/
noncomputable def m_of (frequency : ℝ) (n_Sa : ℤ) : ℝ :=
  d_of frequency n_Sa - 12 * (k_of frequency n_Sa : ℝ)

/-- `f_exact = 440 * 2**((n_exact - 69) / 12)` (line 53); `n_exact` is an
integer (`n_Sa + 12 * k + semitone_offset`, all integers). -/
noncomputable def f_exact_of (n_exact : ℤ) : ℝ :=
  440 * (2 : ℝ) ^ (((n_exact : ℝ) - 69) / 12)

/-- `cents = 1200 * np.log2(frequency / f_exact)` (line 54). -/
noncomputable def cents_of (frequency : ℝ) (n_exact : ℤ) : ℝ :=
  1200 * Real.logb 2 (frequency / f_exact_of n_exact)

/-- The `if abs_cents < 10 ... elif ... else` ladder (lines 57-62). -/
noncomputable def clarity_color (abs_cents : ℝ) : String :=
  if abs_cents < 10 then "green"
  else if abs_cents < 20 then "yellow"
  else "red"

/-- The outcome of one classification, as displayed by `process_audio`:
either the "no sound detected" state or a detected swar with its saptak
label, clarity colour, and cents deviation. -/
inductive Result where
  | NoSignal : Result
  | Detected (swar saptak clarity : String) (cents : ℝ) : Result

/-- `process_audio(frequency)` (lines 38-72 of the source) with the global
tonic `n_Sa` passed explicitly.  `none` models a raised Python exception. -/
noncomputable def process_audio (frequency : ℝ) (n_Sa : ℤ) : Option Result :=
  if frequency > 20 then
    match find_closest_swar (m_of frequency n_Sa) with
    | none => none
    | some (swar, k_adjust) =>
      let k : ℤ := k_of frequency n_Sa + k_adjust
      let saptak := saptak_label k
      match swar_to_semitone swar with
      | none => none
      | some semitone_offset =>
        let cents := cents_of frequency (n_Sa + 12 * k + semitone_offset)
        some (Result.Detected swar saptak (clarity_color |cents|) cents)
  else
    some Result.NoSignal

/-- The guard `frequency > 20` on an IEEE float: a comparison with NaN
evaluates to false.  `none` models a NaN frequency sample; for an ordinary
(finite) float the comparison agrees with the real-number comparison. -/
def float_gt_20 : Option ℝ → Prop := fun x =>
  match x with
  | none => False
  | some f => f > 20

/-- `process_audio` lifted to possibly-NaN float inputs: the `frequency > 20`
comparison is false for NaN, so NaN takes the `else` branch (NoSignal). -/
noncomputable def process_audioF (x : Option ℝ) (n_Sa : ℤ) : Option Result :=
  match x with
  | none => some Result.NoSignal
  | some f => process_audio f n_Sa

/-! ### Generic properties of `argmin` (first occurrence of the minimum) -/

lemma argmin_lt_length (l : List ℝ) (h : l ≠ []) : argmin l < l.length := by
  induction l with
  | nil => simp at h
  | cons x t ih =>
    cases t with
    | nil => simp [argmin]
    | cons y xs =>
      simp only [argmin]
      split
      · have := ih (by simp)
        simpa using Nat.succ_lt_succ this
      · simp

lemma argmin_le_getD (l : List ℝ) (j : ℕ) (hj : j < l.length) :
    l.getD (argmin l) 0 ≤ l.getD j 0 := by
  induction l generalizing j with
  | nil => simp at hj
  | cons x t ih =>
    cases t with
    | nil =>
      have hj0 : j = 0 := by simpa using Nat.lt_one_iff.mp (by simpa using hj)
      subst hj0
      simp [argmin]
    | cons y xs =>
      simp only [argmin]
      split
      · rename_i hlt
        rw [List.getD_cons_succ]
        cases j with
        | zero => rw [List.getD_cons_zero]; exact le_of_lt hlt
        | succ j' =>
          rw [List.getD_cons_succ]
          exact ih j' (by simpa using hj)
      · rename_i hge
        push_neg at hge
        rw [List.getD_cons_zero]
        cases j with
        | zero => rw [List.getD_cons_zero]
        | succ j' =>
          rw [List.getD_cons_succ]
          exact le_trans hge (ih j' (by simpa using hj))

lemma argmin_first (l : List ℝ) (j : ℕ) (hj : j < argmin l) :
    l.getD (argmin l) 0 < l.getD j 0 := by
  induction l generalizing j with
  | nil => simp [argmin] at hj
  | cons x t ih =>
    cases t with
    | nil => simp [argmin] at hj
    | cons y xs =>
      by_cases hc : (y :: xs).getD (argmin (y :: xs)) 0 < x
      · simp only [argmin, if_pos hc] at hj ⊢
        rw [List.getD_cons_succ]
        cases j with
        | zero => rw [List.getD_cons_zero]; exact hc
        | succ j' =>
          rw [List.getD_cons_succ]
          exact ih j' (Nat.succ_lt_succ_iff.mp hj)
      · simp only [argmin, if_neg hc] at hj
        exact absurd hj (Nat.not_lt_zero j)

/-! ### Properties of the candidate distances and `find_closest_swar` -/

lemma distances_eq (m : ℝ) :
    distances m = [circ_dist m 0, circ_dist m 2, circ_dist m 4, circ_dist m 5,
      circ_dist m 7, circ_dist m 9, circ_dist m 11, circ_dist m 12] := by
  simp [distances, candidate_semitones, swar_semitones]

lemma distances_length (m : ℝ) : (distances m).length = 8 := by
  rw [distances_eq]; rfl

lemma distances_ne_nil (m : ℝ) : distances m ≠ [] := by
  rw [distances_eq]; simp

/-- On `[0, 12)` the circular distance to candidate 0 equals the circular
distance to the virtual candidate 12. -/
lemma circ_dist_wrap (m : ℝ) (h0 : 0 ≤ m) (h1 : m < 12) :
    circ_dist m 0 = circ_dist m 12 := by
  unfold circ_dist
  push_cast
  rw [sub_zero, abs_of_nonneg h0, abs_of_nonpos (by linarith : m - 12 ≤ 0),
    show -(m - 12) = 12 - m by ring, show (12 : ℝ) - (12 - m) = m by ring, min_comm]

lemma argmin_distances_lt (m : ℝ) : argmin (distances m) < 8 := by
  have := argmin_lt_length (distances m) (distances_ne_nil m)
  rwa [distances_length] at this

/-- The first-wins argmin never selects the virtual candidate at index 7,
because index 0 attains the same distance earlier. -/
lemma argmin_distances_ne_seven (m : ℝ) (h0 : 0 ≤ m) (h1 : m < 12) :
    argmin (distances m) ≠ 7 := by
  intro h
  have h7 : (0 : ℕ) < argmin (distances m) := by rw [h]; norm_num
  have hlt := argmin_first (distances m) 0 h7
  rw [h] at hlt
  have e0 : (distances m).getD 0 0 = circ_dist m 0 := by rw [distances_eq]; rfl
  have e7 : (distances m).getD 7 0 = circ_dist m 12 := by rw [distances_eq]; rfl
  rw [e0, e7, ← circ_dist_wrap m h0 h1] at hlt
  exact lt_irrefl _ hlt

lemma find_closest_swar_spec (m : ℝ) (h0 : 0 ≤ m) (h1 : m < 12) :
    ∃ name, swar_names.get? (argmin (distances m)) = some name ∧
      name ∈ swar_names ∧ find_closest_swar m = some (name, 0) := by
  have hlt := argmin_distances_lt m
  have hne := argmin_distances_ne_seven m h0 h1
  have hlen : argmin (distances m) < swar_names.length := by
    have : swar_names.length = 7 := rfl
    omega
  refine ⟨swar_names.get ⟨_, hlen⟩, List.get?_eq_get hlen,
    List.get_mem _ _ _, ?_⟩
  unfold find_closest_swar
  rw [if_neg hne, List.get?_eq_get hlen]
  rfl

lemma swar_to_semitone_isSome (name : String) (h : name ∈ swar_names) :
    (swar_to_semitone name).isSome := by
  fin_cases h <;> rfl

/-! ### Bounds on the octave decomposition -/

lemma m_of_bounds (f : ℝ) (t : ℤ) : 0 ≤ m_of f t ∧ m_of f t < 12 := by
  have h1 : ((⌊d_of f t / 12⌋ : ℤ) : ℝ) ≤ d_of f t / 12 := Int.floor_le _
  have h2 : d_of f t / 12 < ⌊d_of f t / 12⌋ + 1 := Int.lt_floor_add_one _
  unfold m_of k_of
  constructor <;> linarith

/-- Structure of `process_audio` on any frequency above the 20 Hz floor:
the swar lookup succeeds, the saptak adjustment is 0, and the result is a
`Detected` value. -/
lemma process_audio_pos (f : ℝ) (t : ℤ) (hf : 20 < f) :
    ∃ name off,
      find_closest_swar (m_of f t) = some (name, 0) ∧
      swar_to_semitone name = some off ∧
      process_audio f t =
        some (Result.Detected name (saptak_label (k_of f t))
          (clarity_color |cents_of f (t + 12 * k_of f t + off)|)
          (cents_of f (t + 12 * k_of f t + off))) := by
  obtain ⟨hm0, hm1⟩ := m_of_bounds f t
  obtain ⟨name, hget, hmem, hfind⟩ := find_closest_swar_spec _ hm0 hm1
  obtain ⟨off, hoff⟩ := Option.isSome_iff_exists.mp (swar_to_semitone_isSome name hmem)
  refine ⟨name, off, hfind, hoff, ?_⟩
  unfold process_audio
  rw [if_pos hf, hfind]
  simp only [hoff, add_zero]

/-! ### Evaluation helpers for frequencies of the form `440 * 2 ^ q` -/

lemma n_of_rpow (q : ℝ) : n_of (440 * (2 : ℝ) ^ q) = 69 + 12 * q := by
  unfold n_of
  rw [mul_div_cancel_left₀ _ (by norm_num : (440 : ℝ) ≠ 0),
    Real.logb_rpow (by norm_num) (by norm_num)]

lemma d_of_rpow (q : ℝ) (t : ℤ) :
    d_of (440 * (2 : ℝ) ^ q) t = 69 + 12 * q - t := by
  unfold d_of
  rw [n_of_rpow]

lemma cents_of_rpow (q : ℝ) (ne : ℤ) :
    cents_of (440 * (2 : ℝ) ^ q) ne = 1200 * q - 100 * ((ne : ℝ) - 69) := by
  unfold cents_of f_exact_of
  rw [mul_div_mul_left _ _ (by norm_num : (440 : ℝ) ≠ 0),
    ← Real.rpow_sub (by norm_num : (0 : ℝ) < 2),
    Real.logb_rpow (by norm_num) (by norm_num)]
  ring

lemma twenty_lt_rpow (q : ℝ) (hq : 0 ≤ q) : 20 < 440 * (2 : ℝ) ^ q := by
  have h1 : (2 : ℝ) ^ (0 : ℝ) ≤ 2 ^ q :=
    Real.rpow_le_rpow_of_exponent_le (by norm_num) hq
  rw [Real.rpow_zero] at h1
  nlinarith

/-! ### Concrete evaluations of `find_closest_swar` -/

lemma find_at_0 : find_closest_swar (0 : ℝ) = some ("Sa", 0) := by
  have hd : distances (0 : ℝ) = [0, 2, 4, 5, 5, 3, 1, 0] := by
    norm_num [distances, candidate_semitones, swar_semitones, circ_dist,
      abs_of_nonneg, abs_of_nonpos]
  rw [find_closest_swar, hd]
  norm_num [argmin, swar_names]

lemma find_at_2 : find_closest_swar (2 : ℝ) = some ("Re", 0) := by
  have hd : distances (2 : ℝ) = [2, 0, 2, 3, 5, 5, 3, 2] := by
    norm_num [distances, candidate_semitones, swar_semitones, circ_dist,
      abs_of_nonneg, abs_of_nonpos]
  rw [find_closest_swar, hd]
  norm_num [argmin, swar_names]

lemma find_at_4 : find_closest_swar (4 : ℝ) = some ("Ga", 0) := by
  have hd : distances (4 : ℝ) = [4, 2, 0, 1, 3, 5, 5, 4] := by
    norm_num [distances, candidate_semitones, swar_semitones, circ_dist,
      abs_of_nonneg, abs_of_nonpos]
  rw [find_closest_swar, hd]
  norm_num [argmin, swar_names]

lemma find_at_5 : find_closest_swar (5 : ℝ) = some ("Ma", 0) := by
  have hd : distances (5 : ℝ) = [5, 3, 1, 0, 2, 4, 6, 5] := by
    norm_num [distances, candidate_semitones, swar_semitones, circ_dist,
      abs_of_nonneg, abs_of_nonpos]
  rw [find_closest_swar, hd]
  norm_num [argmin, swar_names]

lemma find_at_7 : find_closest_swar (7 : ℝ) = some ("Pa", 0) := by
  have hd : distances (7 : ℝ) = [5, 5, 3, 2, 0, 2, 4, 5] := by
    norm_num [distances, candidate_semitones, swar_semitones, circ_dist,
      abs_of_nonneg, abs_of_nonpos]
  rw [find_closest_swar, hd]
  norm_num [argmin, swar_names]

lemma find_at_9 : find_closest_swar (9 : ℝ) = some ("Dha", 0) := by
  have hd : distances (9 : ℝ) = [3, 5, 5, 4, 2, 0, 2, 3] := by
    norm_num [distances, candidate_semitones, swar_semitones, circ_dist,
      abs_of_nonneg, abs_of_nonpos]
  rw [find_closest_swar, hd]
  norm_num [argmin, swar_names]

lemma find_at_11 : find_closest_swar (11 : ℝ) = some ("Ni", 0) := by
  have hd : distances (11 : ℝ) = [1, 3, 5, 6, 4, 2, 0, 1] := by
    norm_num [distances, candidate_semitones, swar_semitones, circ_dist,
      abs_of_nonneg, abs_of_nonpos]
  rw [find_closest_swar, hd]
  norm_num [argmin, swar_names]

lemma find_at_1 : find_closest_swar (1 : ℝ) = some ("Sa", 0) := by
  have hd : distances (1 : ℝ) = [1, 1, 3, 4, 6, 4, 2, 1] := by
    norm_num [distances, candidate_semitones, swar_semitones, circ_dist,
      abs_of_nonneg, abs_of_nonpos]
  rw [find_closest_swar, hd]
  norm_num [argmin, swar_names]

/-- At `m = 11.9` (one tenth of a semitone below the next Sa, well inside the
"closer to 12 than to 11" region) the first-wins argmin still picks index 0:
Sa with saptak adjustment 0, not the virtual candidate at 12. -/
lemma find_at_119_10 : find_closest_swar (119 / 10 : ℝ) = some ("Sa", 0) := by
  have hd : distances (119 / 10 : ℝ) =
      [1/10, 21/10, 41/10, 51/10, 49/10, 29/10, 9/10, 1/10] := by
    norm_num [distances, candidate_semitones, swar_semitones, circ_dist,
      abs_of_nonneg, abs_of_nonpos]
  rw [find_closest_swar, hd]
  norm_num [argmin, swar_names]

/-! ### Full pipeline evaluations -/

/-- A frequency exactly at the pitch of a swar with offset `s` (relative to
tonic `t`), provided it clears the 20 Hz floor, classifies to that swar in
Madhya saptak with 0 cents and colour green. -/
lemma process_audio_exact (t s : ℤ) (hs0 : 0 ≤ s) (hs12 : s < 12)
    (name : String)
    (hfind : find_closest_swar ((s : ℤ) : ℝ) = some (name, 0))
    (hoff : swar_to_semitone name = some s)
    (hf : 20 < 440 * (2 : ℝ) ^ (((t : ℝ) + (s : ℝ) - 69) / 12)) :
    process_audio (440 * (2 : ℝ) ^ (((t : ℝ) + (s : ℝ) - 69) / 12)) t =
      some (Result.Detected name "Madhya" "green" 0) := by
  have hd : d_of (440 * (2 : ℝ) ^ (((t : ℝ) + (s : ℝ) - 69) / 12)) t = (s : ℝ) := by
    rw [d_of_rpow]
    ring
  have hk : k_of (440 * (2 : ℝ) ^ (((t : ℝ) + (s : ℝ) - 69) / 12)) t = 0 := by
    unfold k_of
    rw [hd, Int.floor_eq_zero_iff]
    constructor
    · positivity
    · rw [div_lt_one (by norm_num)]
      exact_mod_cast hs12
  have hm : m_of (440 * (2 : ℝ) ^ (((t : ℝ) + (s : ℝ) - 69) / 12)) t = (s : ℝ) := by
    unfold m_of
    rw [hd, hk]
    norm_num
  have hc : cents_of (440 * (2 : ℝ) ^ (((t : ℝ) + (s : ℝ) - 69) / 12))
      (t + 12 * (0 + 0) + s) = 0 := by
    rw [cents_of_rpow]
    push_cast
    ring
  unfold process_audio
  rw [if_pos hf, hm, hfind]
  simp only [hoff, hk, hc, abs_zero]
  norm_num [saptak_label, saptak_names, clarity_color]
  rfl

/-- Concrete run exhibiting the dead wraparound branch: tonic 69, frequency
`440 * 2^(119/120)` (octave position `m = 11.9`, one tenth of a semitone below
the next Sa).  The code reports Sa of the *current* saptak (Madhya, `k = 0`)
with a 1190-cent deviation, instead of Sa of the next saptak. -/
lemma process_audio_bug :
    process_audio (440 * (2 : ℝ) ^ ((119 : ℝ) / 120)) 69 =
      some (Result.Detected "Sa" "Madhya" "red" 1190) := by
  have hf : (20 : ℝ) < 440 * 2 ^ ((119 : ℝ) / 120) :=
    twenty_lt_rpow _ (by norm_num)
  have hd : d_of (440 * (2 : ℝ) ^ ((119 : ℝ) / 120)) 69 = 119 / 10 := by
    rw [d_of_rpow]
    norm_num
  have hk : k_of (440 * (2 : ℝ) ^ ((119 : ℝ) / 120)) 69 = 0 := by
    unfold k_of
    rw [hd]
    norm_num
  have hm : m_of (440 * (2 : ℝ) ^ ((119 : ℝ) / 120)) 69 = 119 / 10 := by
    unfold m_of
    rw [hd, hk]
    norm_num
  have hc : cents_of (440 * (2 : ℝ) ^ ((119 : ℝ) / 120)) (69 + 12 * (0 + 0) + 0) = 1190 := by
    rw [cents_of_rpow]
    norm_num
  unfold process_audio
  rw [if_pos hf, hm, find_at_119_10]
  simp only [show swar_to_semitone "Sa" = some 0 from rfl, hk, hc]
  norm_num [clarity_color, saptak_label, saptak_names, abs_of_nonneg]
  rfl

/-- The spec's worked example: tonic 69 (A), frequency 440 Hz (Sa itself)
classifies as Sa, Madhya, green, 0 cents. -/
lemma process_audio_440 :
    process_audio 440 69 = some (Result.Detected "Sa" "Madhya" "green" 0) := by
  have hexp : (((69 : ℤ) : ℝ) + ((0 : ℤ) : ℝ) - 69) / 12 = (0 : ℝ) := by norm_num
  have h440 : (440 : ℝ) = 440 * (2 : ℝ) ^ ((((69 : ℤ) : ℝ) + ((0 : ℤ) : ℝ) - 69) / 12) := by
    rw [hexp, Real.rpow_zero, mul_one]
  rw [h440]
  refine process_audio_exact 69 0 le_rfl (by norm_num) "Sa"
    (by exact_mod_cast find_at_0) rfl ?_
  rw [← h440]
  norm_num

/-- The exact Sa pitch for tonic 0 is ≈ 8.18 Hz, below the 20 Hz floor. -/
lemma lowSa_le_twenty : 440 * (2 : ℝ) ^ (((0 : ℝ) + 0 - 69) / 12) ≤ 20 := by
  have hexp : ((0 : ℝ) + 0 - 69) / 12 = -((69 : ℝ) / 12) := by norm_num
  have h32 : (32 : ℝ) ≤ (2 : ℝ) ^ ((69 : ℝ) / 12) := by
    have h1 : (2 : ℝ) ^ ((5 : ℝ)) ≤ (2 : ℝ) ^ ((69 : ℝ) / 12) :=
      Real.rpow_le_rpow_of_exponent_le (by norm_num) (by norm_num)
    have h2 : (2 : ℝ) ^ ((5 : ℝ)) = 32 := by
      rw [show (5 : ℝ) = ((5 : ℕ) : ℝ) by norm_num, Real.rpow_natCast]
      norm_num
    linarith
  have hpos : (0 : ℝ) < (2 : ℝ) ^ ((69 : ℝ) / 12) :=
    Real.rpow_pos_of_pos (by norm_num) _
  have hinv : ((2 : ℝ) ^ ((69 : ℝ) / 12))⁻¹ ≤ (32 : ℝ)⁻¹ :=
    inv_anti₀ (by norm_num) h32
  rw [hexp, Real.rpow_neg (by norm_num)]
  nlinarith

/-! ### Claim theorems -/

/-- Claim C1 (code bug, code evaluated at the failing input): tonic 69 and
frequency `440 * 2^(119/120)` put the octave-relative position at `m = 11.9`,
strictly closer to 12 than to 11; the claim (and the spec) require Sa of the
next saptak (`k+1`), but the code returns Sa of the *current* saptak
(Madhya, `k = 0`) with a 1190-cent deviation, because the first-wins argmin
always prefers the candidate at index 0 over the tied virtual candidate at
index 7. -/
theorem claim_C1 :
    circ_dist (119 / 10 : ℝ) 12 < circ_dist (119 / 10 : ℝ) 11 ∧
    m_of (440 * (2 : ℝ) ^ ((119 : ℝ) / 120)) 69 = 119 / 10 ∧
    process_audio (440 * (2 : ℝ) ^ ((119 : ℝ) / 120)) 69 =
      some (Result.Detected "Sa" "Madhya" "red" 1190) := by
  have hd : d_of (440 * (2 : ℝ) ^ ((119 : ℝ) / 120)) 69 = 119 / 10 := by
    rw [d_of_rpow]
    norm_num
  have hk : k_of (440 * (2 : ℝ) ^ ((119 : ℝ) / 120)) 69 = 0 := by
    unfold k_of
    rw [hd]
    norm_num
  refine ⟨?_, ?_, process_audio_bug⟩
  · norm_num [circ_dist, abs_of_nonneg, abs_of_nonpos]
  · unfold m_of
    rw [hd, hk]
    norm_num

/-- Claim C2 counterexample: at tonic `t = 0` and swar offset `s = 0` the
exact pitch `440 * 2^((0+0-69)/12)` ≈ 8.18 Hz is below the 20 Hz floor, so the
code returns NoSignal — not a green, 0-cent detection as the claim states for
ALL integer tonics. -/
theorem claim_C2_counterexample :
    process_audio (440 * (2 : ℝ) ^ (((0 : ℝ) + 0 - 69) / 12)) 0 = some Result.NoSignal ∧
    ∀ sw sp ce, process_audio (440 * (2 : ℝ) ^ (((0 : ℝ) + 0 - 69) / 12)) 0 ≠
      some (Result.Detected sw sp "green" ce) := by
  have h : process_audio (440 * (2 : ℝ) ^ (((0 : ℝ) + 0 - 69) / 12)) 0 =
      some Result.NoSignal := by
    unfold process_audio
    rw [if_neg (not_lt.mpr lowSa_le_twenty)]
  refine ⟨h, fun sw sp ce hne => ?_⟩
  rw [h] at hne
  exact Result.noConfusion (Option.some.inj hne)

/-- Claim C2 (amended): for every tonic `t` and swar offset `s` (indexed by
`i < 7` in `swar_semitones`), an input frequency of exactly
`440 * 2^((t+s-69)/12)` — provided it clears the 20 Hz floor — classifies to
the swar with offset `s`, with 0 cents and colour green (Clear). -/
theorem claim_C2 (t : ℤ) (i : ℕ) (hi : i < 7)
    (hf : 20 < 440 * (2 : ℝ) ^ (((t : ℝ) + ((swar_semitones.getD i 0 : ℤ) : ℝ) - 69) / 12)) :
    process_audio (440 * (2 : ℝ) ^ (((t : ℝ) + ((swar_semitones.getD i 0 : ℤ) : ℝ) - 69) / 12)) t =
      some (Result.Detected (swar_names.getD i "") "Madhya" "green" 0) := by
  interval_cases i
  · exact process_audio_exact t 0 (by norm_num) (by norm_num) "Sa"
      (by exact_mod_cast find_at_0) rfl hf
  · exact process_audio_exact t 2 (by norm_num) (by norm_num) "Re"
      (by exact_mod_cast find_at_2) rfl hf
  · exact process_audio_exact t 4 (by norm_num) (by norm_num) "Ga"
      (by exact_mod_cast find_at_4) rfl hf
  · exact process_audio_exact t 5 (by norm_num) (by norm_num) "Ma"
      (by exact_mod_cast find_at_5) rfl hf
  · exact process_audio_exact t 7 (by norm_num) (by norm_num) "Pa"
      (by exact_mod_cast find_at_7) rfl hf
  · exact process_audio_exact t 9 (by norm_num) (by norm_num) "Dha"
      (by exact_mod_cast find_at_9) rfl hf
  · exact process_audio_exact t 11 (by norm_num) (by norm_num) "Ni"
      (by exact_mod_cast find_at_11) rfl hf

/-- Witness for claim C2 at tonic 69, index 0 (Sa, frequency 440 Hz). -/
theorem claim_C2_witness :
    (0 : ℕ) < 7 ∧
    (20 < 440 * (2 : ℝ) ^ ((((69 : ℤ) : ℝ) + ((swar_semitones.getD 0 0 : ℤ) : ℝ) - 69) / 12)) ∧
    process_audio
      (440 * (2 : ℝ) ^ ((((69 : ℤ) : ℝ) + ((swar_semitones.getD 0 0 : ℤ) : ℝ) - 69) / 12)) 69 =
      some (Result.Detected (swar_names.getD 0 "") "Madhya" "green" 0) := by
  have hf : 20 < 440 * (2 : ℝ) ^ ((((69 : ℤ) : ℝ) + ((swar_semitones.getD 0 0 : ℤ) : ℝ) - 69) / 12) :=
    twenty_lt_rpow _ (by norm_num [swar_semitones, List.getD_cons_zero])
  exact ⟨by norm_num, hf, claim_C2 69 0 (by norm_num) hf⟩

/-- Claim C3: for every tonic, `process_audio` yields NoSignal exactly when
the frequency is not strictly above 20 Hz; in particular 20.0 Hz is NoSignal
and 20.0001 Hz is a Detected result. -/
theorem claim_C3 :
    (∀ (f : ℝ) (t : ℤ), process_audio f t = some Result.NoSignal ↔ f ≤ 20) ∧
    (∀ t : ℤ, process_audio 20 t = some Result.NoSignal) ∧
    (∀ t : ℤ, ∃ sw sp c ce,
      process_audio (20.0001 : ℝ) t = some (Result.Detected sw sp c ce)) := by
  have hdet : ∀ (f : ℝ) (t : ℤ), 20 < f →
      ∃ sw sp c ce, process_audio f t = some (Result.Detected sw sp c ce) := by
    intro f t hf
    obtain ⟨name, off, _, _, h⟩ := process_audio_pos f t hf
    exact ⟨_, _, _, _, h⟩
  refine ⟨?_, ?_, ?_⟩
  · intro f t
    constructor
    · intro h
      by_contra hgt
      push_neg at hgt
      obtain ⟨sw, sp, c, ce, h2⟩ := hdet f t hgt
      rw [h2] at h
      exact Result.noConfusion (Option.some.inj h)
    · intro h
      unfold process_audio
      rw [if_neg (not_lt.mpr h)]
  · intro t
    unfold process_audio
    rw [if_neg (by norm_num)]
  · intro t
    exact hdet _ t (by norm_num)

/-- Witness for claim C3: at 20 Hz (tonic 60) the result is NoSignal. -/
theorem claim_C3_witness : process_audio 20 60 = some Result.NoSignal :=
  claim_C3.2.1 60

/-- Claim C4: totality and guarding.  Any frequency failing the `> 20`
comparison short-circuits to NoSignal before any logarithm; when the guard
passes, both arguments handed to `log2` (namely `f / 440` and `f / f_exact`)
are strictly positive; `process_audio` never raises (`isSome`); and a NaN
frequency, for which the float comparison is false, is also NoSignal. -/
theorem claim_C4 :
    (∀ (f : ℝ) (t : ℤ), ¬ 20 < f → process_audio f t = some Result.NoSignal) ∧
    (∀ f : ℝ, 20 < f → 0 < f / 440 ∧ ∀ ne : ℤ, 0 < f / f_exact_of ne) ∧
    (∀ (f : ℝ) (t : ℤ), (process_audio f t).isSome) ∧
    (∀ t : ℤ, ¬ float_gt_20 none ∧ process_audioF none t = some Result.NoSignal) := by
  refine ⟨?_, ?_, ?_, ?_⟩
  · intro f t h
    unfold process_audio
    rw [if_neg h]
  · intro f hf
    have hfpos : (0 : ℝ) < f := by linarith
    refine ⟨by positivity, fun ne => ?_⟩
    have hex : (0 : ℝ) < f_exact_of ne := by
      unfold f_exact_of
      positivity
    exact div_pos hfpos hex
  · intro f t
    by_cases hf : 20 < f
    · obtain ⟨name, off, _, _, h⟩ := process_audio_pos f t hf
      rw [h]
      rfl
    · unfold process_audio
      rw [if_neg hf]
      rfl
  · intro t
    exact ⟨fun h => h, rfl⟩

/-- Witness for claim C4: 15 Hz fails the guard and yields NoSignal. -/
theorem claim_C4_witness :
    (¬ (20 : ℝ) < 15) ∧ process_audio 15 60 = some Result.NoSignal :=
  ⟨by norm_num, claim_C4.1 15 60 (by norm_num)⟩

/-- Claim C5: the selected candidate minimizes the circular distance over the
8 candidates, ties resolve to the earliest candidate in ascending semitone
order, and in particular `m = 1` (halfway between Sa at 0 and Re at 2)
resolves to Sa. -/
theorem claim_C5 (m : ℝ) (h0 : 0 ≤ m) (h1 : m < 12) :
    (∀ j, j < 8 →
      (distances m).getD (argmin (distances m)) 0 ≤ (distances m).getD j 0) ∧
    (∀ j, j < 8 →
      (distances m).getD j 0 = (distances m).getD (argmin (distances m)) 0 →
      argmin (distances m) ≤ j) ∧
    find_closest_swar (1 : ℝ) = some ("Sa", 0) := by
  refine ⟨?_, ?_, find_at_1⟩
  · intro j hj
    exact argmin_le_getD _ j (by rw [distances_length]; exact hj)
  · intro j hj heq
    by_contra hlt
    push_neg at hlt
    have hfst := argmin_first (distances m) j hlt
    rw [heq] at hfst
    exact lt_irrefl _ hfst

/-- Witness for claim C5 at `m = 1`. -/
theorem claim_C5_witness :
    (0 : ℝ) ≤ 1 ∧ (1 : ℝ) < 12 ∧
    ((∀ j, j < 8 →
      (distances 1).getD (argmin (distances 1)) 0 ≤ (distances 1).getD j 0) ∧
    (∀ j, j < 8 →
      (distances 1).getD j 0 = (distances 1).getD (argmin (distances 1)) 0 →
      argmin (distances 1) ≤ j) ∧
    find_closest_swar (1 : ℝ) = some ("Sa", 0)) :=
  ⟨by norm_num, by norm_num, claim_C5 1 (by norm_num) (by norm_num)⟩

/-- Claim C6: the octave index is the floor (toward negative infinity) of
`d / 12`, the octave-relative position is `m = d - 12k`, and `0 ≤ m < 12`
for every frequency above the floor and every integer tonic. -/
theorem claim_C6 (f : ℝ) (t : ℤ) (hf : 20 < f) :
    k_of f t = ⌊d_of f t / 12⌋ ∧
    m_of f t = d_of f t - 12 * (k_of f t : ℝ) ∧
    0 ≤ m_of f t ∧ m_of f t < 12 :=
  ⟨rfl, rfl, (m_of_bounds f t).1, (m_of_bounds f t).2⟩

/-- Witness for claim C6 at 440 Hz, tonic 69. -/
theorem claim_C6_witness :
    (20 : ℝ) < 440 ∧
    (k_of 440 69 = ⌊d_of 440 69 / 12⌋ ∧
     m_of 440 69 = d_of 440 69 - 12 * (k_of 440 69 : ℝ) ∧
     0 ≤ m_of 440 69 ∧ m_of 440 69 < 12) :=
  ⟨by norm_num, claim_C6 440 69 (by norm_num)⟩

/-- Claim C7: on every Detected result the clarity colour is exactly the
three-level threshold map of the absolute cents deviation: `< 10 ↔ green`
(Clear), `[10, 20) ↔ yellow` (Somewhat-clear), `≥ 20 ↔ red` (Unclear); exactly
one of the three is produced. -/
theorem claim_C7 (f : ℝ) (t : ℤ) (sw sp c : String) (ce : ℝ)
    (h : process_audio f t = some (Result.Detected sw sp c ce)) :
    ((|ce| < 10 ↔ c = "green") ∧ ((10 ≤ |ce| ∧ |ce| < 20) ↔ c = "yellow") ∧
      (20 ≤ |ce| ↔ c = "red")) ∧
    (c = "green" ∨ c = "yellow" ∨ c = "red") := by
  have hgt : 20 < f := by
    by_contra hng
    unfold process_audio at h
    rw [if_neg hng] at h
    exact Result.noConfusion (Option.some.inj h)
  obtain ⟨name, off, hfind, hoff, heq⟩ := process_audio_pos f t hgt
  rw [h] at heq
  simp only [Option.some.injEq, Result.Detected.injEq] at heq
  obtain ⟨hsw, hsp, hcl, hce⟩ := heq
  subst hce
  subst hcl
  rcases lt_or_le |cents_of f (t + 12 * k_of f t + off)| 10 with h10 | h10
  · have hc : clarity_color |cents_of f (t + 12 * k_of f t + off)| = "green" := by
      rw [clarity_color, if_pos h10]
    rw [hc]
    exact ⟨⟨⟨fun _ => rfl, fun _ => h10⟩,
      ⟨fun hx2 => absurd hx2.1 (not_le.mpr h10), fun hgy => absurd hgy (by decide)⟩,
      ⟨fun hx2 => absurd hx2 (not_le.mpr (by linarith)), fun hgr => absurd hgr (by decide)⟩⟩,
      Or.inl rfl⟩
  · rcases lt_or_le |cents_of f (t + 12 * k_of f t + off)| 20 with h20 | h20
    · have hc : clarity_color |cents_of f (t + 12 * k_of f t + off)| = "yellow" := by
        rw [clarity_color, if_neg (not_lt.mpr h10), if_pos h20]
      rw [hc]
      exact ⟨⟨⟨fun hlt => absurd hlt (not_lt.mpr h10), fun h' => absurd h' (by decide)⟩,
        ⟨fun _ => rfl, fun _ => ⟨h10, h20⟩⟩,
        ⟨fun h' => absurd h' (not_le.mpr h20), fun h' => absurd h' (by decide)⟩⟩,
        Or.inr (Or.inl rfl)⟩
    · have hc : clarity_color |cents_of f (t + 12 * k_of f t + off)| = "red" := by
        rw [clarity_color, if_neg (not_lt.mpr h10), if_neg (not_lt.mpr (by linarith))]
      rw [hc]
      exact ⟨⟨⟨fun hlt => absurd hlt (not_lt.mpr h10), fun h' => absurd h' (by decide)⟩,
        ⟨fun hx2 => absurd hx2.2 (not_lt.mpr h20), fun h' => absurd h' (by decide)⟩,
        ⟨fun _ => rfl, fun _ => h20⟩⟩,
        Or.inr (Or.inr rfl)⟩

/-- Witness for claim C7 on the Detected result at 440 Hz, tonic 69. -/
theorem claim_C7_witness :
    process_audio 440 69 = some (Result.Detected "Sa" "Madhya" "green" 0) ∧
    (((|(0 : ℝ)| < 10 ↔ "green" = "green") ∧
      ((10 ≤ |(0 : ℝ)| ∧ |(0 : ℝ)| < 20) ↔ "green" = "yellow") ∧
      (20 ≤ |(0 : ℝ)| ↔ "green" = "red")) ∧
      ("green" = "green" ∨ "green" = "yellow" ∨ "green" = "red")) :=
  ⟨process_audio_440, claim_C7 440 69 "Sa" "Madhya" "green" 0 process_audio_440⟩

/-- Claim C8: the saptak label is Mandra for -1, Madhya for 0, Taar for 1,
and the generic "Saptak {k}" for every other integer; the labelling is total
over ℤ. -/
theorem claim_C8 (k : ℤ) :
    (k = -1 → saptak_label k = "Mandra") ∧
    (k = 0 → saptak_label k = "Madhya") ∧
    (k = 1 → saptak_label k = "Taar") ∧
    (k ≠ -1 → k ≠ 0 → k ≠ 1 → saptak_label k = "Saptak " ++ toString k) := by
  refine ⟨?_, ?_, ?_, ?_⟩
  · rintro rfl; rfl
  · rintro rfl; rfl
  · rintro rfl; rfl
  · intro h1 h2 h3
    have e1 : (k == -1) = false := beq_eq_false_iff_ne.mpr h1
    have e2 : (k == 0) = false := beq_eq_false_iff_ne.mpr h2
    have e3 : (k == 1) = false := beq_eq_false_iff_ne.mpr h3
    simp [saptak_label, saptak_names, List.lookup, e1, e2, e3]

/-- Witness for claim C8 at the out-of-range octave index 5. -/
theorem claim_C8_witness :
    ((5 : ℤ) ≠ -1) ∧ ((5 : ℤ) ≠ 0) ∧ ((5 : ℤ) ≠ 1) ∧
    saptak_label 5 = "Saptak " ++ toString (5 : ℤ) :=
  ⟨by decide, by decide, by decide,
    (claim_C8 5).2.2.2 (by decide) (by decide) (by decide)⟩

/-- Claim C9: classification is a pure function of frequency and tonic: any
two invocations with identical inputs produce identical results. -/
theorem claim_C9 (f1 f2 : ℝ) (t1 t2 : ℤ) (hf : f1 = f2) (ht : t1 = t2) :
    process_audio f1 t1 = process_audio f2 t2 := by
  rw [hf, ht]

/-- Witness for claim C9 at 440 Hz, tonic 69. -/
theorem claim_C9_witness :
    ((440 : ℝ) = 440) ∧ ((69 : ℤ) = 69) ∧
    process_audio 440 69 = process_audio 440 69 :=
  ⟨rfl, rfl, claim_C9 440 440 69 69 rfl rfl⟩

/-- Claim C10 (implicit): on `[0, 12)` the distance to the Sa candidate at 0
equals the distance to the virtual candidate at 12, so the first-wins argmin
never selects index 7: `find_closest_swar` always returns one of the 7 swar
names with adjustment 0, and the subsequent dictionary lookup succeeds. -/
theorem claim_C10 (m : ℝ) (h0 : 0 ≤ m) (h1 : m < 12) :
    circ_dist m 0 = circ_dist m 12 ∧
    argmin (distances m) ≠ 7 ∧
    ∃ name, name ∈ swar_names ∧ find_closest_swar m = some (name, 0) ∧
      (swar_to_semitone name).isSome := by
  refine ⟨circ_dist_wrap m h0 h1, argmin_distances_ne_seven m h0 h1, ?_⟩
  obtain ⟨name, _, hmem, hfind⟩ := find_closest_swar_spec m h0 h1
  exact ⟨name, hmem, hfind, swar_to_semitone_isSome name hmem⟩

/-- Witness for claim C10 at `m = 23/2 = 11.5`. -/
theorem claim_C10_witness :
    (0 : ℝ) ≤ 23 / 2 ∧ (23 / 2 : ℝ) < 12 ∧
    (circ_dist (23 / 2 : ℝ) 0 = circ_dist (23 / 2 : ℝ) 12 ∧
     argmin (distances (23 / 2 : ℝ)) ≠ 7 ∧
     ∃ name, name ∈ swar_names ∧ find_closest_swar (23 / 2 : ℝ) = some (name, 0) ∧
       (swar_to_semitone name).isSome) :=
  ⟨by norm_num, by norm_num, claim_C10 (23 / 2) (by norm_num) (by norm_num)⟩

end Bansi
